import Mathlib

/-!
Shallow embedding of `src/index.js` (express-resource), a routing-convention
layer that maps named resource actions onto HTTP verb and path pairs registered
against a host application object.

Modelling conventions:
  - JavaScript values that the module inspects are modelled by `JsVal`;
    `JsVal.undefined` models `undefined`, and JS truthiness is `JsVal.truthy`.
  - A JS object used as a configuration dictionary is an association list
    `JsObj` with unique keys in insertion order; reading a missing key yields
    `JsVal.undefined`, exactly as property access does in JS.
  - Handler functions are opaque values of a type parameter `Act`; the module
    never calls them during registration, it only stores and forwards them.
  - Thrown JS exceptions are modelled with `Except JsError`.
  - The route-record object literal at source lines 216-221 contains stray
    commas (comma-first style slip); it is read as the record
    `{httpVerb, path: route, orig, action}` that the surrounding code
    stores and later reads back in `Resource.prototype.add`.
  - The per-verb helper methods installed on `Resource.prototype` at source
    lines 347-362 are arrow functions, so their `this` is the lexical module
    `this` (the initial `module.exports` object), which has no `map` property;
    every invocation of such a helper therefore throws
    `TypeError: this.map is not a function` before touching the router.
    The constructor reaches these helpers through `mapDefaultAction` and
    through the `customActions` loop, which is what the error results below
    record.
-/

set_option autoImplicit false

deriving instance DecidableEq for Except

namespace ExpressResource

/-- JavaScript values that `src/index.js` inspects in its configuration
objects: `undefined`, strings, functions (opaque handler of type `Act`
together with its declared arity, i.e. `fn.length`), arrays of strings
(the `only` option) and arrays of `[verb, actionName]` pairs (the
`customActions` option). -/
inductive JsVal (Act : Type) : Type where
  | undefined : JsVal Act
  | str (s : String) : JsVal Act
  | fn (arity : Nat) (a : Act) : JsVal Act
  | strs (l : List String) : JsVal Act
  | pairs (l : List (String × String)) : JsVal Act
deriving DecidableEq, Repr

/-- JS truthiness for the modelled values: `undefined` and the empty string
are falsy; functions and arrays (even empty ones) are truthy. -/
def JsVal.truthy {Act : Type} : JsVal Act → Bool
  | .undefined => false
  | .str s => !(s == "")
  | .fn _ _ => true
  | .strs _ => true
  | .pairs _ => true

/-- A JS object used as a dictionary: keys in insertion order, unique. -/
abbrev JsObj (Act : Type) : Type := List (String × JsVal Act)

/-- Property read `o[k]`: first binding for `k`, or `undefined` when absent. -/
def getObj {Act : Type} (o : JsObj Act) (k : String) : JsVal Act :=
  match o.find? (fun p => p.1 = k) with
  | some p => p.2
  | none => .undefined

/-- Property write `o[k] = v` on an association list: replaces the binding in
place when the key exists, appends it otherwise (JS object key order). -/
def setAssoc {K V : Type} [DecidableEq K] (o : List (K × V)) (k : K) (v : V) :
    List (K × V) :=
  match o with
  | [] => [(k, v)]
  | (k0, v0) :: t => if k0 = k then (k, v) :: t else (k0, v0) :: setAssoc t k v

/-- Property deletion `delete o[k]`: removes the (unique) binding for `k`. -/
def removeKey {K V : Type} [DecidableEq K] (o : List (K × V)) (k : K) :
    List (K × V) :=
  match o with
  | [] => []
  | (k0, v0) :: t => if k0 = k then t else (k0, v0) :: removeKey t k

/-- Keys of an association list, in order. -/
def keysOf {K V : Type} (o : List (K × V)) : List K :=
  o.map Prod.fst

/-- The `for (var key in opts) actions[key] = opts[key];` loop at source
line 57: every enumerable key of `opts` is copied into `actions`, in
insertion order, overwriting same-named keys. -/
def mergeObj {Act : Type} (actions opts : JsObj Act) : JsObj Act :=
  opts.foldl (fun acc p => setAssoc acc p.1 p.2) actions

/-- Pre-defined action ordering, source lines 22-31. -/
def orderedActions : List String :=
  ["index", "new", "create", "show", "edit", "update", "patch", "destroy"]

/-- Membership test `actions.only.includes(actionName)` for the modelled
shape of the `only` option (an array of strings). Other truthy shapes of
`only` are outside the modelled configuration space. -/
def onlyIncludes {Act : Type} : JsVal Act → String → Bool
  | .strs l, a => l.contains a
  | _, _ => false

/-- The guard of the default-action loop, source lines 100-106:
`actions[actionName] && (!actions.only || actions.only.includes(actionName))`. -/
def gate {Act : Type} (acts : JsObj Act) (actionName : String) : Bool :=
  (getObj acts actionName).truthy &&
    (!(getObj acts "only").truthy || onlyIncludes (getObj acts "only") actionName)

/-- The default actions the constructor attempts to wire, in the fixed
source order: `orderedActions.forEach` filtered by `gate`. -/
def gatedActions {Act : Type} (acts : JsObj Act) : List String :=
  orderedActions.filter (gate acts)

/-- Suffix test on strings through their character lists (the library
`String.endsWith` does not reduce in the kernel). -/
def strEndsWith (s t : String) : Bool :=
  t.data.isSuffixOf s.data

/-- Model of the external `lingo` dependency method `en.singularize`,
restricted to the regular English plural rules the claims exercise:
a trailing "ies" becomes "y", otherwise a trailing "s" is dropped. -/
def singularize (s : String) : String :=
  if strEndsWith s "ies" then s.dropRight 3 ++ "y"
  else if strEndsWith s "s" then s.dropRight 1
  else s

/-- Split on the path separator through the character list (the library
`String.splitOn` does not reduce in the kernel). -/
def splitOnSlash (s : String) : List String :=
  (s.data.splitOn '/').map String.mk

/-- Default id derivation, source lines 165-169: the final path segment of
the name (split on "/"), singularized; the literal "id" for a falsy name. -/
def defaultIdOf (name : Option String) : String :=
  match name with
  | some s => if s = "" then "id" else singularize ((splitOnSlash s).getLastD "")
  | none => "id"

/-- Source lines 73-76: append a trailing slash unless the last character is
already a slash. -/
def trailingSlashIt (path : String) : String :=
  if path.data.getLast? == some '/' then path else path ++ "/"

/-- Source lines 78-84. A falsy provided value yields "/". The else branch
computes `trailingSlashIt(providedValue)` but never returns it, so a truthy
provided base makes the function return `undefined`, modelled as `none`. -/
def figureOutBase {Act : Type} (providedValue : JsVal Act) : Option String :=
  if !providedValue.truthy then some "/" else none

/-- String coercion of the possibly-undefined `base` field inside the
template literal of `prepareRoute` and the `+` concatenation of `add`:
JS renders `undefined` as the string "undefined". -/
def jsUndefStr : Option String → String
  | some s => s
  | none => "undefined"

/-- Truthiness of the `name` field (`null` or a string in this module). -/
def optStrTruthy : Option String → Bool
  | some s => !(s == "")
  | none => false

/-- Source lines 171-184, `Resource.prototype.prepareRoute`, with the fields
it reads (`this.base`, `this.name`, `this.param`) passed explicitly.
A leading slash on the sub-path is stripped (absolute override); otherwise a
non-empty sub-path is prefixed with the id parameter and a slash, and an
empty sub-path becomes the bare id parameter. The final route interpolates
base, name, a separator present only when both name and computed sub-path
are truthy, the computed sub-path, and the literal format suffix. -/
def prepareRouteCore (base : Option String) (name : Option String)
    (param : String) (path : String) : String :=
  let path2 :=
    if path.data.head? == some '/' then path.drop 1
    else if path = "" then param
    else param ++ "/" ++ path
  let sep := if optStrTruthy name && !(path2 == "") then "/" else ""
  jsUndefStr base ++ (name.getD "") ++ sep ++ path2 ++ ".:format?"

/-- ASCII lowercasing through the character list (the library
`String.toLower` does not reduce in the kernel); models
`httpVerb.toLowerCase()` at source line 212. -/
def jsToLower (s : String) : String :=
  String.mk (s.data.map Char.toLower)

/-- The second argument of `Resource.prototype.map`: either a sub-path
string or a handler passed in path position (a function or a format-keyed
dispatch object), in which case map shifts it into the action slot and
uses the empty sub-path (source lines 202-208). -/
inductive PathArg (Act : Type) : Type where
  | str (s : String) : PathArg Act
  | handler (a : Act) : PathArg Act
deriving DecidableEq

/-- The route record stored in `this.routes[httpVerb][route]` at source
lines 216-221, read back by `Resource.prototype.add`. The stray commas of
the comma-first literal are read as the record
`{httpVerb, path: route, orig, action}`. -/
structure RouteRecord (Act : Type) : Type where
  httpVerb : String
  path : String
  orig : PathArg Act
  action : Act
deriving DecidableEq

/-- A `Resource` instance. `oid` is an allocation identity (two `new`
expressions yield two distinct objects); `constructed` is false for the
instance produced by the early `return` at source line 87, whose fields
were never assigned (their vacuous defaults here model `undefined`);
`base = none` models an `undefined` base (see `figureOutBase`). -/
structure Resource (Act : Type) : Type where
  oid : Nat
  constructed : Bool
  name : Option String
  base : Option String
  format : JsVal Act
  id : String
  param : String
  routes : List (String × List (String × RouteRecord Act))
  loadFunction : JsVal Act
deriving DecidableEq

/-- The blank instance returned by `if (!actions) return;` at source
line 87: no field of the object was assigned. -/
def inertResource {Act : Type} (oid : Nat) : Resource Act :=
  { oid, constructed := false, name := none, base := none, format := .undefined,
    id := "", param := "", routes := [], loadFunction := .undefined }

/-- A route registration received by the host application object through
`this.app[httpVerb](route, wrappedHandler)` at source lines 224-236. The
wrapped handler is a closure over `action` that performs format
negotiation at request time; the model records the action it closes
over. -/
structure AppRoute (Act : Type) : Type where
  verb : String
  path : String
  action : Act
deriving DecidableEq

/-- Lookup of the per-verb bucket `this.routes[httpVerb]`, an empty
dictionary when absent. -/
def findBucket {Act : Type} (routes : List (String × List (String × RouteRecord Act)))
    (verb : String) : List (String × RouteRecord Act) :=
  match routes.find? (fun p => p.1 = verb) with
  | some p => p.2
  | none => []

/-- Source lines 171-184 as a method: `Resource.prototype.prepareRoute`. -/
def Resource.prepareRoute {Act : Type} (r : Resource Act) (path : String) : String :=
  prepareRouteCore r.base r.name r.param path

/-- Source lines 196-239, `Resource.prototype.map`, minus the
`httpVerb instanceof Resource` branch (which delegates to `add` and is
modelled by calling `Resource.add` directly). A handler in path position
is shifted to the action slot with the empty sub-path; the verb is
lowercased; the route record is stored under
`this.routes[verb][route]` (creating the bucket when needed, replacing
any previous entry at the same key); and one registration is handed to
the host application. Returns the updated resource and registration
list. -/
def Resource.map {Act : Type} (r : Resource Act) (regs : List (AppRoute Act))
    (httpVerb : String) (pathArg : PathArg Act) (actionArg : Act) :
    Resource Act × List (AppRoute Act) :=
  let pa : String × Act :=
    match pathArg with
    | .str s => (s, actionArg)
    | .handler a => ("", a)
  let route := r.prepareRoute pa.1
  let verb := jsToLower httpVerb
  let bucket := findBucket r.routes verb
  ({ r with routes :=
      setAssoc r.routes verb (setAssoc bucket route ⟨verb, route, pathArg, pa.2⟩) },
   regs ++ [⟨verb, route, pa.2⟩])

/-- The verb and effective sub-path that `Resource.prototype.mapDefaultAction`
(source lines 312-341) hands to the per-verb helper for each canonical
action. For show, update, patch and destroy the handler itself is passed
in path position and the helper plus `map` shift it to the empty
sub-path; index and create use the absolute sub-path "/", new uses the
absolute sub-path "/new", and edit uses the relative sub-path "edit". -/
def defaultActionVerbPath : String → Option (String × String)
  | "index" => some ("get", "/")
  | "new" => some ("get", "/new")
  | "create" => some ("post", "/")
  | "show" => some ("get", "")
  | "edit" => some ("get", "edit")
  | "update" => some ("put", "")
  | "patch" => some ("patch", "")
  | "destroy" => some ("delete", "")
  | _ => none

/-- A thrown JavaScript exception. -/
inductive JsError : Type where
  | typeError (msg : String) : JsError
deriving DecidableEq

/-- The constructor `Resource(name, actions, app)`, source lines 86-122.
With a falsy actions argument it returns the blank instance at once.
Otherwise it assigns the identity fields, then walks `orderedActions`:
for the first action passing the guard it calls `mapDefaultAction`,
which invokes a per-verb helper; the helpers are arrow functions whose
lexical `this` has no `map` property (source lines 347-362), so the call
throws a TypeError. When no default action passes the guard, it
evaluates `actions.customActions.forEach(...)`: a missing or non-array
value has no `forEach` (TypeError); a non-empty array first builds
`hookUpActionMethod(actions[actionName], actions)` - itself a TypeError
when the named handler is absent (`bind` of undefined) - and otherwise
throws inside the same broken verb helper. Only an empty `customActions`
array lets construction finish; then a truthy `actions.load` registers
the parameter hook (returned as the hook list). -/
def Resource.construct {Act : Type} (name : Option String)
    (actions : Option (JsObj Act)) (oid : Nat) :
    Except JsError (Resource Act × List (String × JsVal Act)) :=
  match actions with
  | none => .ok (inertResource oid, [])
  | some acts =>
    let theId : String :=
      match getObj acts "id" with
      | .str s => if s = "" then defaultIdOf name else s
      | .undefined => defaultIdOf name
      | _ => defaultIdOf name
    if gatedActions acts ≠ [] then
      .error (.typeError "this.map is not a function")
    else
      match getObj acts "customActions" with
      | .pairs [] =>
          let loadV := getObj acts "load"
          .ok ({ oid, constructed := true, name,
                 base := figureOutBase (getObj acts "base"),
                 format := getObj acts "format",
                 id := theId, param := ":" ++ theId, routes := [],
                 loadFunction := if loadV.truthy then loadV else .undefined },
               if loadV.truthy then [(theId, loadV)] else [])
      | .pairs ((_, actionName) :: _) =>
          if (getObj acts actionName).truthy then
            .error (.typeError "this.map is not a function")
          else
            .error (.typeError "cannot read bind of undefined")
      | .undefined => .error (.typeError "cannot read forEach of undefined")
      | _ => .error (.typeError "customActions.forEach is not a function")

/-- The host application object: the resource registry installed at
source line 39, the routes registered with the router, the named
parameter hooks from `app.param`, and an allocation counter giving each
`new Resource(...)` its identity. -/
structure AppState (Act : Type) : Type where
  resources : List (Option String × Resource Act)
  regs : List (AppRoute Act)
  paramHooks : List (String × JsVal Act)
  nextOid : Nat
deriving DecidableEq

/-- A freshly installed application: empty registry, no routes. -/
def emptyApp {Act : Type} : AppState Act :=
  { resources := [], regs := [], paramHooks := [], nextOid := 0 }

/-- Registry lookup `this.resources[name]`. -/
def findRes {Act : Type} (l : List (Option String × Resource Act))
    (k : Option String) : Option (Resource Act) :=
  match l.find? (fun p => p.1 = k) with
  | some p => some p.2
  | none => none

/-- The factory `resource(name, actions, opts)`, source lines 51-60.
The object-in-name-position shift at lines 52-55 is the caller passing
the actions dictionary positionally and is modelled by the explicit
`name` and `actions` arguments. With no actions, an existing registry
entry is returned; on a miss a fresh blank Resource is returned and NOT
stored. With actions, every enumerable key of `opts` is first copied
into the caller-supplied actions object (mutating it in place; the third
component of the result is the caller-visible state of that object),
then a Resource is constructed and, when construction does not throw,
stored in the registry under the name. An exception from the constructor
propagates and leaves the registry unchanged. -/
def resource {Act : Type} (app : AppState Act) (name : Option String)
    (actions opts : Option (JsObj Act)) :
    Except JsError (Resource Act) × AppState Act × Option (JsObj Act) :=
  match actions with
  | none =>
      match findRes app.resources name with
      | some r => (.ok r, app, none)
      | none => (.ok (inertResource app.nextOid),
                 { app with nextOid := app.nextOid + 1 }, none)
  | some acts =>
      let merged := mergeObj acts (opts.getD [])
      match Resource.construct name (some merged) app.nextOid with
      | .error e => (.error e, { app with nextOid := app.nextOid + 1 }, some merged)
      | .ok (r, hooks) =>
          (.ok r,
           { app with resources := setAssoc app.resources name r,
                      paramHooks := app.paramHooks ++ hooks,
                      nextOid := app.nextOid + 1 },
           some merged)

/-- The recomputed base of a nested child, source lines 256-258: parent
base (string-coerced, an undefined base renders as "undefined") plus the
parent name and a separator when the parent is named, plus the parent id
parameter and a separator. -/
def nestedBase {Act : Type} (parent : Resource Act) : String :=
  jsUndefStr parent.base
    ++ (if optStrTruthy parent.name then parent.name.getD "" ++ "/" else "")
    ++ parent.param ++ "/"

/-- The original sub-path a stored route was mapped with: the string form
of its `orig` field, or the empty sub-path when the handler itself had
been passed in path position (the shift at source lines 202-208 repeats
on re-registration). -/
def origPathOf {Act : Type} (rec : RouteRecord Act) : String :=
  match rec.orig with
  | .str s => s
  | .handler _ => ""

/-- The action a stored route is re-registered with: `map` takes it from
the path position when `orig` is a handler, from the action slot
otherwise. -/
def origActionOf {Act : Type} (rec : RouteRecord Act) : Act :=
  match rec.orig with
  | .str _ => rec.action
  | .handler a => a

/-- The route record produced when a stored route is re-registered through
`map` against the (rebased) resource `c0`. -/
def remapRec {Act : Type} (c0 : Resource Act) (rec : RouteRecord Act) :
    RouteRecord Act :=
  { httpVerb := jsToLower rec.httpVerb,
    path := c0.prepareRoute (origPathOf rec),
    orig := rec.orig,
    action := origActionOf rec }

/-- The host-router registration produced when a stored route is
re-registered through `map` against the (rebased) resource `c0`. -/
def remapReg {Act : Type} (c0 : Resource Act) (rec : RouteRecord Act) :
    AppRoute Act :=
  { verb := jsToLower rec.httpVerb,
    path := c0.prepareRoute (origPathOf rec),
    action := origActionOf rec }

/-- A re-registered bucket entry: the recomputed route path as the key,
paired with the re-registered record. -/
def remapPair {Act : Type} (c0 : Resource Act) (q : String × RouteRecord Act) :
    String × RouteRecord Act :=
  ((remapRec c0 q.2).path, remapRec c0 q.2)

/-- One iteration of the inner loop of `Resource.prototype.add` (source
lines 263-276): look up the route stored under `key` in the bucket for
`verb`, delete it, and re-register it through `map` with its original
sub-path and action. -/
def addInnerStep {Act : Type} (verb : String)
    (acc2 : Resource Act × List (AppRoute Act)) (key : String) :
    Resource Act × List (AppRoute Act) :=
  match (findBucket acc2.1.routes verb).find? (fun p => p.1 = key) with
  | none => acc2
  | some kv =>
      let b2 := removeKey (findBucket acc2.1.routes verb) key
      let c2 := { acc2.1 with routes := setAssoc acc2.1.routes verb b2 }
      Resource.map c2 acc2.2 kv.2.httpVerb kv.2.orig kv.2.action

/-- One iteration of the outer loop of `Resource.prototype.add` (source
lines 261-277): run the inner loop over a snapshot of the keys the bucket
for `verb` holds when the bucket is reached (for-in does not visit
entries inserted during the iteration). -/
def addOuterStep {Act : Type} (acc : Resource Act × List (AppRoute Act))
    (verb : String) : Resource Act × List (AppRoute Act) :=
  (keysOf (findBucket acc.1.routes verb)).foldl (addInnerStep verb) acc

/-- Source lines 250-280, `Resource.prototype.add`. The child base is
recomputed from the parent, then every stored route of the child is
deleted from the route table and re-registered through `map` with its
original sub-path and action against the new base. The `destroy` to
`delete` rename at line 266 only feeds a commented-out block and has no
observable effect. Returns the rewritten child and the grown registration
list (the parent itself is returned by the source for chaining and is not
modified). -/
def Resource.add {Act : Type} (parent child : Resource Act)
    (regs : List (AppRoute Act)) : Resource Act × List (AppRoute Act) :=
  let child0 := { child with base := some (nestedBase parent) }
  (keysOf child0.routes).foldl addOuterStep (child0, regs)

/-- Source lines 132-156, `Resource.prototype.load`: stores the loader
and registers the parameter-resolution hook with the host under the id
parameter name; returns the resource for chaining. The request-time
behaviour of the hook is modelled by `paramHookRun` below. -/
def Resource.load {Act : Type} (r : Resource Act) (fn : JsVal Act)
    (hooks : List (String × JsVal Act)) :
    Resource Act × List (String × JsVal Act) :=
  ({ r with loadFunction := fn }, hooks ++ [(r.id, fn)])

/-- The request object seen by the parameter hook: only its path
parameters are read (`req.params[id]`). -/
structure JsRequest : Type where
  params : String → String

/-- What the parameter hook does with a request: forward an error to
`next(err)`, short-circuit with `res.send(404)`, or attach the resolved
entity on the request under `key` and call `next()` so that the matched
route handler runs. -/
inductive LoadOutcome (Err Obj : Type) : Type where
  | nextErr (e : Err) : LoadOutcome Err Obj
  | send404 : LoadOutcome Err Obj
  | attachNext (key : String) (obj : Obj) : LoadOutcome Err Obj
deriving DecidableEq

/-- Whether an outcome of the parameter hook reaches the matched route
handler: only the attach-and-continue outcome calls `next()` and lets the
router proceed to the handler; a 404 response or an error outcome does
not. -/
def LoadOutcome.reachesAction {Err Obj : Type} : LoadOutcome Err Obj → Bool
  | .attachNext _ _ => true
  | _ => false

/-- The `callback` closure at source lines 138-145: a truthy error is
forwarded to `next(err)`; an `undefined` result (modelled `none`) sends
404; otherwise `req[id] = obj; next()`. -/
def loadCallback {Err Obj : Type} (id : String) (err : Option Err)
    (obj : Option Obj) : LoadOutcome Err Obj :=
  match err with
  | some e => .nextErr e
  | none =>
    match obj with
    | none => .send404
    | some o => .attachNext id o

/-- A loader function together with its declared arity, as dispatched on
at source lines 148-152: a two-parameter loader receives
`(rawId, callback)`, any other arity receives `(req, rawId, callback)`. -/
inductive LoaderFn (Err Obj : Type) : Type where
  | arity2 (f : String → (Option Err → Option Obj → LoadOutcome Err Obj) →
      LoadOutcome Err Obj) : LoaderFn Err Obj
  | arityOther (f : JsRequest → String →
      (Option Err → Option Obj → LoadOutcome Err Obj) → LoadOutcome Err Obj) :
      LoaderFn Err Obj

/-- The parameter-resolution hook registered by `load` (the anonymous
function at source lines 137-153), run on a request carrying the id
parameter. -/
def paramHookRun {Err Obj : Type} (fn : LoaderFn Err Obj) (id : String)
    (req : JsRequest) : LoadOutcome Err Obj :=
  match fn with
  | .arity2 f => f (req.params id) (loadCallback id)
  | .arityOther f => f req (req.params id) (loadCallback id)

/-! General lemmas about strings and association lists used below. -/

theorem append_left_ne_empty (a b : String) (h : a ≠ "") : a ++ b ≠ "" := by
  intro hc
  apply h
  have hd := congrArg String.data hc
  simp only [String.data_append] at hd
  have h2 : a.data = [] := (List.append_eq_nil.mp hd).1
  exact String.ext h2

theorem slash_colon : ("/" : String) ++ ":" = "/:" := by decide

theorem slash_colon_fold (x : String) : "/" ++ (":" ++ x) = "/:" ++ x := by
  rw [← String.append_assoc, slash_colon]

theorem getObj_nil {Act : Type} (k : String) : getObj ([] : JsObj Act) k = .undefined := rfl

theorem getObj_cons {Act : Type} (k0 k : String) (v0 : JsVal Act) (t : JsObj Act) :
    getObj ((k0, v0) :: t) k = if k0 = k then v0 else getObj t k := by
  by_cases h : k0 = k <;> simp [getObj, List.find?_cons, h]

theorem find?_setAssoc_self {K V : Type} [DecidableEq K] (l : List (K × V))
    (k : K) (v : V) :
    (setAssoc l k v).find? (fun p => p.1 = k) = some (k, v) := by
  induction l with
  | nil => simp [setAssoc]
  | cons kv t ih =>
    obtain ⟨k0, v0⟩ := kv
    by_cases he : k0 = k
    · simp [setAssoc, he]
    · simp [setAssoc, he, List.find?_cons, ih]

theorem find?_setAssoc_other {K V : Type} [DecidableEq K] (l : List (K × V))
    (k k2 : K) (v : V) (hne : k2 ≠ k) :
    (setAssoc l k v).find? (fun p => p.1 = k2) = l.find? (fun p => p.1 = k2) := by
  have hns : k ≠ k2 := fun h => hne h.symm
  induction l with
  | nil => simp [setAssoc, List.find?_cons, hns]
  | cons kv t ih =>
    obtain ⟨k0, v0⟩ := kv
    by_cases he : k0 = k
    · subst he
      simp [setAssoc, List.find?_cons, hns]
    · simp [setAssoc, he, List.find?_cons, ih]

theorem getObj_setAssoc {Act : Type} (o : JsObj Act) (k k2 : String) (v : JsVal Act) :
    getObj (setAssoc o k v) k2 = if k2 = k then v else getObj o k2 := by
  by_cases he : k2 = k
  · subst he
    simp [getObj, find?_setAssoc_self]
  · simp [getObj, find?_setAssoc_other o k k2 v he, he]

theorem getObj_mergeObj {Act : Type} (acts opts : JsObj Act) (k : String)
    (h : (keysOf opts).Nodup) :
    getObj (mergeObj acts opts) k =
      if (keysOf opts).contains k then getObj opts k else getObj acts k := by
  induction opts generalizing acts with
  | nil => simp [mergeObj, keysOf, getObj]
  | cons kv t ih =>
    obtain ⟨k0, v0⟩ := kv
    have h2 : k0 ∉ keysOf t ∧ (keysOf t).Nodup := by
      simp only [keysOf, List.map_cons, List.nodup_cons] at h
      simpa [keysOf] using h
    have hstep : mergeObj acts ((k0, v0) :: t) = mergeObj (setAssoc acts k0 v0) t := by
      simp [mergeObj]
    rw [hstep, ih _ h2.2]
    by_cases he : k = k0
    · subst he
      have hc : (keysOf t).contains k = false := by
        rw [Bool.eq_false_iff]
        intro hcc
        exact h2.1 (List.elem_iff.mp hcc)
      simp [hc, keysOf, getObj_cons, getObj_setAssoc]
      intro x hx
      exact absurd (List.mem_map_of_mem Prod.fst hx) h2.1
    · have hne0 : k0 ≠ k := fun hh => he hh.symm
      by_cases hm : (keysOf t).contains k = true
      · simp [keysOf] at hm ⊢
        simp [hm, getObj_cons, hne0, he]
      · simp [keysOf] at hm ⊢
        simp [hm, getObj_cons, hne0, he, getObj_setAssoc]

theorem findRes_setAssoc {Act : Type} (l : List (Option String × Resource Act))
    (k : Option String) (r : Resource Act) :
    findRes (setAssoc l k r) k = some r := by
  simp [findRes, find?_setAssoc_self]

theorem removeKey_head {K V : Type} [DecidableEq K] (k : K) (v : V) (t : List (K × V)) :
    removeKey ((k, v) :: t) k = t := by
  simp [removeKey]

theorem find?_key_head {K V : Type} [DecidableEq K] (k : K) (v : V) (t : List (K × V)) :
    ((k, v) :: t).find? (fun p => p.1 = k) = some (k, v) := by
  simp [List.find?_cons]

theorem setAssoc_append_of_not_mem {K V : Type} [DecidableEq K] (l : List (K × V))
    (k : K) (v : V) (h : k ∉ keysOf l) : setAssoc l k v = l ++ [(k, v)] := by
  induction l with
  | nil => simp [setAssoc]
  | cons kv t ih =>
    obtain ⟨k0, v0⟩ := kv
    simp only [keysOf, List.map_cons, List.mem_cons, not_or] at h
    have h1 : ¬ k0 = k := fun hc => h.1 hc.symm
    have h2 : k ∉ keysOf t := by simpa [keysOf] using h.2
    simp [setAssoc, h1, ih h2]

theorem findBucket_setAssoc_self {Act : Type}
    (routes : List (String × List (String × RouteRecord Act))) (verb : String)
    (b : List (String × RouteRecord Act)) :
    findBucket (setAssoc routes verb b) verb = b := by
  simp [findBucket, find?_setAssoc_self]

theorem findBucket_setAssoc_other {Act : Type}
    (routes : List (String × List (String × RouteRecord Act))) (verb v2 : String)
    (b : List (String × RouteRecord Act)) (h : v2 ≠ verb) :
    findBucket (setAssoc routes verb b) v2 = findBucket routes v2 := by
  simp [findBucket, find?_setAssoc_other _ _ _ _ h]

theorem map_remap {Act : Type} (c : Resource Act) (rs : List (AppRoute Act))
    (rec : RouteRecord Act) :
    (Resource.map c rs rec.httpVerb rec.orig rec.action).1.routes =
      setAssoc c.routes (jsToLower rec.httpVerb)
        (setAssoc (findBucket c.routes (jsToLower rec.httpVerb))
          (c.prepareRoute (origPathOf rec))
          ⟨jsToLower rec.httpVerb, c.prepareRoute (origPathOf rec), rec.orig,
            origActionOf rec⟩)
  ∧ (Resource.map c rs rec.httpVerb rec.orig rec.action).1.base = c.base
  ∧ (Resource.map c rs rec.httpVerb rec.orig rec.action).1.name = c.name
  ∧ (Resource.map c rs rec.httpVerb rec.orig rec.action).1.param = c.param
  ∧ (Resource.map c rs rec.httpVerb rec.orig rec.action).2 =
      rs ++ [⟨jsToLower rec.httpVerb, c.prepareRoute (origPathOf rec),
        origActionOf rec⟩] := by
  cases horig : rec.orig <;>
    refine ⟨?_, ?_, ?_, ?_, ?_⟩ <;>
    simp [Resource.map, origPathOf, origActionOf, horig]

theorem addInnerStep_spec {Act : Type} (c0 : Resource Act) (verb : String)
    (hlow : jsToLower verb = verb) (c : Resource Act) (rs : List (AppRoute Act))
    (k : String) (rec : RouteRecord Act) (bucketRest : List (String × RouteRecord Act))
    (hcb : c.base = c0.base) (hcn : c.name = c0.name) (hcp : c.param = c0.param)
    (hrecv : rec.httpVerb = verb)
    (hbucket : findBucket c.routes verb = (k, rec) :: bucketRest)
    (hnk : (remapRec c0 rec).path ∉ keysOf bucketRest) :
    (addInnerStep verb (c, rs) k).1.base = c0.base
  ∧ (addInnerStep verb (c, rs) k).1.name = c0.name
  ∧ (addInnerStep verb (c, rs) k).1.param = c0.param
  ∧ findBucket (addInnerStep verb (c, rs) k).1.routes verb =
      bucketRest ++ [remapPair c0 (k, rec)]
  ∧ (∀ v2, v2 ≠ verb →
      findBucket (addInnerStep verb (c, rs) k).1.routes v2 = findBucket c.routes v2)
  ∧ (addInnerStep verb (c, rs) k).2 = rs ++ [remapReg c0 rec] := by
  have hfind : (findBucket c.routes verb).find? (fun p => p.1 = k) = some (k, rec) := by
    rw [hbucket]
    exact find?_key_head k rec _
  have hrem : removeKey (findBucket c.routes verb) k = bucketRest := by
    rw [hbucket]
    exact removeKey_head k rec _
  have hstep : addInnerStep verb (c, rs) k =
      Resource.map { c with routes := setAssoc c.routes verb bucketRest } rs
        rec.httpVerb rec.orig rec.action := by
    rw [addInnerStep, hfind, hrem]
  have hroutes : ({ c with routes := setAssoc c.routes verb bucketRest } :
      Resource Act).routes = setAssoc c.routes verb bucketRest := rfl
  have hpath : ({ c with routes := setAssoc c.routes verb bucketRest } :
      Resource Act).prepareRoute (origPathOf rec) = (remapRec c0 rec).path := by
    show prepareRouteCore c.base c.name c.param (origPathOf rec) = _
    rw [hcb, hcn, hcp]
    rfl
  have hrr2 : (⟨verb, (remapRec c0 rec).path, rec.orig, origActionOf rec⟩ :
      RouteRecord Act) = remapRec c0 rec := by
    simp [remapRec, hrecv, hlow]
  have hrg2 : (⟨verb, (remapRec c0 rec).path, origActionOf rec⟩ : AppRoute Act) =
      remapReg c0 rec := by
    simp [remapReg, remapRec, hrecv, hlow]
  have hsa : setAssoc bucketRest (remapRec c0 rec).path (remapRec c0 rec) =
      bucketRest ++ [remapPair c0 (k, rec)] := by
    rw [setAssoc_append_of_not_mem _ _ _ hnk]
    rfl
  have hmr := map_remap { c with routes := setAssoc c.routes verb bucketRest } rs rec
  obtain ⟨hmr1, hmr2, hmr3, hmr4, hmr5⟩ := hmr
  rw [hrecv] at hmr1 hmr2 hmr3 hmr4 hmr5
  rw [hlow] at hmr1 hmr5
  rw [hroutes, findBucket_setAssoc_self, hpath, hrr2, hsa] at hmr1
  rw [hpath, hrg2] at hmr5
  rw [hstep, hrecv]
  refine ⟨?_, ?_, ?_, ?_, ?_, ?_⟩
  · rw [hmr2]
    exact hcb
  · rw [hmr3]
    exact hcn
  · rw [hmr4]
    exact hcp
  · rw [hmr1, findBucket_setAssoc_self]
  · intro v2 hv2
    rw [hmr1, findBucket_setAssoc_other _ _ _ _ hv2]
    exact findBucket_setAssoc_other _ _ _ _ hv2
  · exact hmr5

theorem addInner_spec {Act : Type} (c0 : Resource Act) (verb : String)
    (hlow : jsToLower verb = verb)
    (b0 : List (String × RouteRecord Act))
    (hv : ∀ q ∈ b0, q.2.httpVerb = verb)
    (hfresh : ∀ q ∈ b0, ∀ q2 ∈ b0, (remapRec c0 q.2).path ≠ q2.1)
    (hnd : (b0.map (fun q => (remapRec c0 q.2).path)).Nodup) :
    ∀ (pend procd : List (String × RouteRecord Act)) (c : Resource Act)
      (rs : List (AppRoute Act)),
      b0 = procd ++ pend →
      c.base = c0.base → c.name = c0.name → c.param = c0.param →
      findBucket c.routes verb = pend ++ procd.map (remapPair c0) →
      ((keysOf pend).foldl (addInnerStep verb) (c, rs)).1.base = c0.base
      ∧ ((keysOf pend).foldl (addInnerStep verb) (c, rs)).1.name = c0.name
      ∧ ((keysOf pend).foldl (addInnerStep verb) (c, rs)).1.param = c0.param
      ∧ findBucket ((keysOf pend).foldl (addInnerStep verb) (c, rs)).1.routes verb =
          b0.map (remapPair c0)
      ∧ (∀ v2, v2 ≠ verb →
          findBucket ((keysOf pend).foldl (addInnerStep verb) (c, rs)).1.routes v2 =
            findBucket c.routes v2)
      ∧ ((keysOf pend).foldl (addInnerStep verb) (c, rs)).2 =
          rs ++ pend.map (fun q => remapReg c0 q.2) := by
  intro pend
  induction pend with
  | nil =>
    intro procd c rs hsplit hcb hcn hcp hbucket
    refine ⟨hcb, hcn, hcp, ?_, fun v2 _ => rfl, by simp [keysOf]⟩
    rw [keysOf]
    simp only [List.map_nil, List.foldl_nil]
    rw [hbucket, hsplit]
    simp
  | cons q pend ih =>
    intro procd c rs hsplit hcb hcn hcp hbucket
    obtain ⟨k, rec⟩ := q
    have hmem : (k, rec) ∈ b0 := by
      rw [hsplit]
      exact List.mem_append_right _ (List.mem_cons_self _ _)
    have hrecv : rec.httpVerb = verb := hv (k, rec) hmem
    have hbucket2 : findBucket c.routes verb =
        (k, rec) :: (pend ++ procd.map (remapPair c0)) := by
      simpa using hbucket
    have hnk : (remapRec c0 rec).path ∉ keysOf (pend ++ procd.map (remapPair c0)) := by
      rw [keysOf, List.map_append]
      intro hin
      rcases List.mem_append.mp hin with hin1 | hin2
      · obtain ⟨⟨k2, rec2⟩, hq2, hk2⟩ := List.mem_map.mp hin1
        exact hfresh (k, rec) hmem (k2, rec2)
          (by rw [hsplit]; exact List.mem_append_right _ (List.mem_cons_of_mem _ hq2))
          hk2.symm
      · obtain ⟨p, hp, hk2⟩ := List.mem_map.mp hin2
        obtain ⟨q2, hq2, hq2e⟩ := List.mem_map.mp hp
        have hndsplit := hnd
        rw [hsplit] at hndsplit
        simp only [List.map_append, List.map_cons] at hndsplit
        have hdisj := (List.nodup_append.mp hndsplit).2.2
        have hmem2 : (remapRec c0 rec).path ∈
            procd.map (fun q => (remapRec c0 q.2).path) := by
          rw [← hk2, ← hq2e]
          exact List.mem_map_of_mem _ hq2
        have hmem3 : (remapRec c0 rec).path ∈
            (remapRec c0 rec).path :: pend.map (fun q => (remapRec c0 q.2).path) :=
          List.mem_cons_self _ _
        exact hdisj hmem2 hmem3
    have hstep := addInnerStep_spec c0 verb hlow c rs k rec
      (pend ++ procd.map (remapPair c0)) hcb hcn hcp hrecv hbucket2 hnk
    obtain ⟨hs1, hs2, hs3, hs4, hs5, hs6⟩ := hstep
    have hbucketNext : findBucket (addInnerStep verb (c, rs) k).1.routes verb =
        pend ++ (procd ++ [(k, rec)]).map (remapPair c0) := by
      rw [hs4, List.map_append]
      simp
    have hihres := ih (procd ++ [(k, rec)]) (addInnerStep verb (c, rs) k).1
      (addInnerStep verb (c, rs) k).2
      (by rw [hsplit]; simp)
      hs1 hs2 hs3 hbucketNext
    obtain ⟨hi1, hi2, hi3, hi4, hi5, hi6⟩ := hihres
    have hfold : (keysOf ((k, rec) :: pend)).foldl (addInnerStep verb) (c, rs) =
        (keysOf pend).foldl (addInnerStep verb)
          ((addInnerStep verb (c, rs) k).1, (addInnerStep verb (c, rs) k).2) := by
      rw [keysOf, List.map_cons, List.foldl_cons]
      rfl
    rw [hfold]
    refine ⟨hi1, hi2, hi3, hi4, ?_, ?_⟩
    · intro v2 hv2
      rw [hi5 v2 hv2]
      exact hs5 v2 hv2
    · rw [hi6, hs6]
      simp

theorem addOuter_spec {Act : Type} (c0 : Resource Act)
    (routes0 : List (String × List (String × RouteRecord Act)))
    (hlow : ∀ v ∈ keysOf routes0, jsToLower v = v)
    (hv : ∀ v ∈ keysOf routes0, ∀ q ∈ findBucket routes0 v, q.2.httpVerb = v)
    (hfresh : ∀ v ∈ keysOf routes0, ∀ q ∈ findBucket routes0 v,
      ∀ q2 ∈ findBucket routes0 v, (remapRec c0 q.2).path ≠ q2.1)
    (hnd : ∀ v ∈ keysOf routes0,
      ((findBucket routes0 v).map (fun q => (remapRec c0 q.2).path)).Nodup) :
    ∀ (pendV : List String) (c : Resource Act) (rs : List (AppRoute Act)),
      (∀ v ∈ pendV, v ∈ keysOf routes0) →
      pendV.Nodup →
      c.base = c0.base → c.name = c0.name → c.param = c0.param →
      (∀ v ∈ pendV, findBucket c.routes v = findBucket routes0 v) →
      (pendV.foldl addOuterStep (c, rs)).1.base = c0.base
      ∧ (pendV.foldl addOuterStep (c, rs)).1.name = c0.name
      ∧ (pendV.foldl addOuterStep (c, rs)).1.param = c0.param
      ∧ (∀ v ∈ pendV, findBucket (pendV.foldl addOuterStep (c, rs)).1.routes v =
          (findBucket routes0 v).map (remapPair c0))
      ∧ (∀ v2, v2 ∉ pendV →
          findBucket (pendV.foldl addOuterStep (c, rs)).1.routes v2 =
            findBucket c.routes v2)
      ∧ (pendV.foldl addOuterStep (c, rs)).2 =
          rs ++ pendV.flatMap (fun v => (findBucket routes0 v).map (fun q => remapReg c0 q.2)) := by
  intro pendV
  induction pendV with
  | nil =>
    intro c rs hsub hpnd hcb hcn hcp hbuckets
    exact ⟨hcb, hcn, hcp, by simp, fun v2 _ => rfl, by simp⟩
  | cons v pendV ihv =>
    intro c rs hsub hpnd hcb hcn hcp hbuckets
    have hmemv : v ∈ keysOf routes0 := hsub v (List.mem_cons_self _ _)
    have hb0 : findBucket c.routes v = findBucket routes0 v :=
      hbuckets v (List.mem_cons_self _ _)
    have hstep : addOuterStep (c, rs) v =
        (keysOf (findBucket routes0 v)).foldl (addInnerStep v) (c, rs) := by
      rw [addOuterStep]
      rw [show ((c, rs) : Resource Act × List (AppRoute Act)).1 = c from rfl, hb0]
    have hinner := addInner_spec c0 v (hlow v hmemv) (findBucket routes0 v)
      (hv v hmemv) (hfresh v hmemv) (hnd v hmemv)
      (findBucket routes0 v) [] c rs (by simp) hcb hcn hcp (by simpa using hb0)
    obtain ⟨hn1, hn2, hn3, hn4, hn5, hn6⟩ := hinner
    rw [← hstep] at hn1 hn2 hn3 hn4 hn5 hn6
    have hvnotin : v ∉ pendV := (List.nodup_cons.mp hpnd).1
    have hihres := ihv (addOuterStep (c, rs) v).1 (addOuterStep (c, rs) v).2
      (fun v2 hv2 => hsub v2 (List.mem_cons_of_mem _ hv2))
      (List.nodup_cons.mp hpnd).2
      hn1 hn2 hn3
      (fun v2 hv2 => by
        rw [hn5 v2 (fun hc => hvnotin (hc ▸ hv2))]
        exact hbuckets v2 (List.mem_cons_of_mem _ hv2))
    obtain ⟨hi1, hi2, hi3, hi4, hi5, hi6⟩ := hihres
    have hfold : ((v :: pendV).foldl addOuterStep (c, rs)) =
        pendV.foldl addOuterStep
          ((addOuterStep (c, rs) v).1, (addOuterStep (c, rs) v).2) := by
      rw [List.foldl_cons]
    rw [hfold]
    refine ⟨hi1, hi2, hi3, ?_, ?_, ?_⟩
    · intro v2 hv2
      rcases List.mem_cons.mp hv2 with hv2e | hv2m
      · subst hv2e
        rw [hi5 v2 hvnotin]
        exact hn4
      · exact hi4 v2 hv2m
    · intro v2 hv2
      have hv2n : v2 ∉ pendV := fun hc => hv2 (List.mem_cons_of_mem _ hc)
      have hv2v : v2 ≠ v := fun hc => hv2 (hc ▸ List.mem_cons_self _ _)
      rw [hi5 v2 hv2n]
      exact hn5 v2 hv2v
    · rw [hi6, hn6]
      simp

/-! Claim theorems. -/

/-- Claim C2: for every base string, non-empty resource name, id parameter
and sub-path not starting with the path separator, the path builder returns
base + name + "/" + ":" + idParam + "/" + subPath + ".:format?" for a
non-empty sub-path and base + name + "/" + ":" + idParam + ".:format?" for
the empty sub-path. -/
theorem claim2_path_builder (base n idParam s : String) (hn : n ≠ "")
    (hs : s.data.head? ≠ some '/') :
    prepareRouteCore (some base) (some n) (":" ++ idParam) s =
      if s = "" then base ++ n ++ "/" ++ ":" ++ idParam ++ ".:format?"
      else base ++ n ++ "/" ++ ":" ++ idParam ++ "/" ++ s ++ ".:format?" := by
  have hcolon : (":" ++ idParam) ≠ "" := append_left_ne_empty ":" idParam (by decide)
  have hs2 : (s.data.head? == some '/') = false := by simp [hs]
  by_cases hse : s = ""
  · subst hse
    simp [prepareRouteCore, jsUndefStr, optStrTruthy, hn, hcolon, String.append_assoc,
      slash_colon_fold]
  · have hpath : ":" ++ (idParam ++ ("/" ++ s)) ≠ "" := append_left_ne_empty ":" _ (by decide)
    simp [prepareRouteCore, jsUndefStr, optStrTruthy, hn, hs2, hse, String.append_assoc,
      hpath, slash_colon_fold]

/-- Witness for claim C2: the sub-path "edit" under resource "users" with
id parameter "user" and base "/" yields "/users/:user/edit.:format?". -/
theorem claim2_path_builder_witness :
    prepareRouteCore (some "/") (some "users") (":" ++ "user") "edit" =
      "/" ++ "users" ++ "/" ++ ":" ++ "user" ++ "/" ++ "edit" ++ ".:format?" := by
  have h := claim2_path_builder "/" "users" "user" "edit" (by decide) (by decide)
  simpa using h

/-- Claim C4 counterexample: the default action "new" is handed the absolute
sub-path "/new", so its route is built at the resource root
("/users/new.:format?") and not at the id-parameter-prefixed named sub-path
("/users/:user/new.:format?") that the claim asserts. -/
theorem claim4_counterexample :
    defaultActionVerbPath "new" = some ("get", "/new")
  ∧ prepareRouteCore (some "/") (some "users") ":user" "/new" = "/users/new.:format?"
  ∧ decide ("/users/new.:format?" = "/users/:user/new.:format?") = false := by
  refine ⟨rfl, by decide, by decide⟩

/-- Claim C4 as amended: for every named resource, index and create are
built at the resource root with no id parameter; show, update, patch and
destroy at the bare id-parameter path; edit at the id-parameter-prefixed
named sub-path; and new at the named root sub-path "/new" with no id
parameter (it is passed with a leading slash, the absolute-override form). -/
theorem claim4_amended (base n idParam : String) (hn : n ≠ "") :
    defaultActionVerbPath "index" = some ("get", "/")
  ∧ defaultActionVerbPath "create" = some ("post", "/")
  ∧ defaultActionVerbPath "show" = some ("get", "")
  ∧ defaultActionVerbPath "update" = some ("put", "")
  ∧ defaultActionVerbPath "patch" = some ("patch", "")
  ∧ defaultActionVerbPath "destroy" = some ("delete", "")
  ∧ defaultActionVerbPath "new" = some ("get", "/new")
  ∧ defaultActionVerbPath "edit" = some ("get", "edit")
  ∧ prepareRouteCore (some base) (some n) (":" ++ idParam) "/" = base ++ n ++ ".:format?"
  ∧ prepareRouteCore (some base) (some n) (":" ++ idParam) "" =
      base ++ n ++ "/" ++ ":" ++ idParam ++ ".:format?"
  ∧ prepareRouteCore (some base) (some n) (":" ++ idParam) "/new" =
      base ++ n ++ "/new.:format?"
  ∧ prepareRouteCore (some base) (some n) (":" ++ idParam) "edit" =
      base ++ n ++ "/" ++ ":" ++ idParam ++ "/edit.:format?" := by
  have hcolon : (":" ++ idParam) ≠ "" := append_left_ne_empty ":" idParam (by decide)
  have hedit : ":" ++ (idParam ++ "/edit") ≠ "" := append_left_ne_empty ":" _ (by decide)
  have hd1 : ("/" : String).drop 1 = "" := by decide
  have hd2 : ("/new" : String).drop 1 = "new" := by decide
  refine ⟨rfl, rfl, rfl, rfl, rfl, rfl, rfl, rfl, ?_, ?_, ?_, ?_⟩
  · simp +decide [prepareRouteCore, jsUndefStr, optStrTruthy, hn, String.append_assoc, hd1]
  · simp [prepareRouteCore, jsUndefStr, optStrTruthy, hn, hcolon, String.append_assoc,
      slash_colon_fold]
  · simp +decide [prepareRouteCore, jsUndefStr, optStrTruthy, hn, String.append_assoc, hd2]
  · simp +decide [prepareRouteCore, jsUndefStr, optStrTruthy, hn, hedit, String.append_assoc,
      slash_colon_fold]

/-- Witness for the amended claim C4 at base "/", resource "users" and id
parameter "user". -/
theorem claim4_amended_witness :
    defaultActionVerbPath "index" = some ("get", "/")
  ∧ defaultActionVerbPath "create" = some ("post", "/")
  ∧ defaultActionVerbPath "show" = some ("get", "")
  ∧ defaultActionVerbPath "update" = some ("put", "")
  ∧ defaultActionVerbPath "patch" = some ("patch", "")
  ∧ defaultActionVerbPath "destroy" = some ("delete", "")
  ∧ defaultActionVerbPath "new" = some ("get", "/new")
  ∧ defaultActionVerbPath "edit" = some ("get", "edit")
  ∧ prepareRouteCore (some "/") (some "users") (":" ++ "user") "/" = "/" ++ "users" ++ ".:format?"
  ∧ prepareRouteCore (some "/") (some "users") (":" ++ "user") "" =
      "/" ++ "users" ++ "/" ++ ":" ++ "user" ++ ".:format?"
  ∧ prepareRouteCore (some "/") (some "users") (":" ++ "user") "/new" =
      "/" ++ "users" ++ "/new.:format?"
  ∧ prepareRouteCore (some "/") (some "users") (":" ++ "user") "edit" =
      "/" ++ "users" ++ "/" ++ ":" ++ "user" ++ "/edit.:format?" :=
  claim4_amended "/" "users" "user" (by decide)

/-- Claim C1 counterexample: the call resource("users", {index: fnA,
show: fnB}) does not register two routes without error; the constructor
throws a TypeError (the per-verb helper reached for the first gated action
is an arrow function whose lexical this has no map) and the host router
receives no registration. -/
theorem claim1_counterexample :
    (resource (emptyApp : AppState String) (some "users")
        (some [("index", .fn 3 "fnA"), ("show", .fn 3 "fnB")]) none).1 =
      .error (.typeError "this.map is not a function")
  ∧ (resource (emptyApp : AppState String) (some "users")
        (some [("index", .fn 3 "fnA"), ("show", .fn 3 "fnB")]) none).2.1.regs = [] := by
  refine ⟨by decide, by decide⟩

/-- Claim C1 as amended: resource("users", {index: fnA, show: fnB}) throws
a TypeError from the broken verb helpers and registers no routes; the gate
selects index and show in source order, and the path builder pairs index
with GET "/users.:format?" and show with GET "/users/:user.:format?" (the
show route carries the "/users" prefix, not the bare "/:user" of the
claim). -/
theorem claim1_amended :
    (resource (emptyApp : AppState String) (some "users")
        (some [("index", .fn 3 "fnA"), ("show", .fn 3 "fnB")]) none).1 =
      .error (.typeError "this.map is not a function")
  ∧ (resource (emptyApp : AppState String) (some "users")
        (some [("index", .fn 3 "fnA"), ("show", .fn 3 "fnB")]) none).2.1.regs = []
  ∧ (resource (emptyApp : AppState String) (some "users")
        (some [("index", .fn 3 "fnA"), ("show", .fn 3 "fnB")]) none).2.1.resources = []
  ∧ gatedActions ([("index", .fn 3 "fnA"), ("show", .fn 3 "fnB")] : JsObj String) =
      ["index", "show"]
  ∧ defaultIdOf (some "users") = "user"
  ∧ figureOutBase
      (getObj ([("index", .fn 3 "fnA"), ("show", .fn 3 "fnB")] : JsObj String) "base") = some "/"
  ∧ defaultActionVerbPath "index" = some ("get", "/")
  ∧ prepareRouteCore (some "/") (some "users") ":user" "/" = "/users.:format?"
  ∧ defaultActionVerbPath "show" = some ("get", "")
  ∧ prepareRouteCore (some "/") (some "users") ":user" "" = "/users/:user.:format?" := by
  refine ⟨by decide, by decide, by decide, by decide, by decide, by decide, rfl,
    by decide, rfl, by decide⟩

/-- Claim C3: the default-action gate admits an action exactly when a
handler is present and the only restriction is absent or contains its name
(here it selects only "show" from a configuration that also carries an
index handler); wiring the selected action then throws a TypeError inside
the arrow-function verb helper, so the scenario registers zero routes
instead of the claimed one. -/
theorem claim3_gate_scenario :
    gatedActions
        ([("index", .fn 3 "fnA"), ("show", .fn 3 "fnB"), ("only", .strs ["show"])] : JsObj String) =
      ["show"]
  ∧ (resource (emptyApp : AppState String) (some "users")
        (some [("index", .fn 3 "fnA"), ("show", .fn 3 "fnB"), ("only", .strs ["show"])])
        none).1 = .error (.typeError "this.map is not a function")
  ∧ (resource (emptyApp : AppState String) (some "users")
        (some [("index", .fn 3 "fnA"), ("show", .fn 3 "fnB"), ("only", .strs ["show"])])
        none).2.1.regs = [] := by
  refine ⟨by decide, by decide, by decide⟩

/-- Claim C5: figureOutBase returns "/" for an absent base but, because its
else branch computes trailingSlashIt(providedValue) without returning it,
a supplied base makes it return undefined; a constructed Resource with
base "/api" therefore carries an undefined base field, not "/api/", even
though trailingSlashIt itself would have produced "/api/". -/
theorem claim5_base_undefined :
    figureOutBase (JsVal.str "/api" : JsVal String) = none
  ∧ trailingSlashIt "/api" = "/api/"
  ∧ figureOutBase (JsVal.undefined : JsVal String) = some "/"
  ∧ Resource.construct (some "things")
      (some ([("base", .str "/api"), ("customActions", .pairs [])] : JsObj String)) 0 =
      .ok ({ oid := 0, constructed := true, name := some "things", base := none,
             format := .undefined, id := "thing", param := ":thing", routes := [],
             loadFunction := .undefined }, []) := by
  refine ⟨by decide, by decide, by decide, by decide⟩

/-- Claim C8: an absent actions configuration yields the inert blank
Resource with no routes, but a present configuration without a
customActions array makes the constructor throw a TypeError (forEach of
undefined), so construction is not error-tolerant for every shape of the
optional keys. -/
theorem claim8_misconfig :
    Resource.construct (some "users") (none : Option (JsObj String)) 0 = .ok (inertResource 0, [])
  ∧ ((inertResource 0 : Resource String)).routes = []
  ∧ Resource.construct (some "users") (some ([] : JsObj String)) 0 =
      .error (.typeError "cannot read forEach of undefined")
  ∧ (resource (emptyApp : AppState String) (some "users") (some []) none).1 =
      .error (.typeError "cannot read forEach of undefined") := by
  refine ⟨by decide, by decide, by decide, by decide⟩

/-- Claim C9 counterexample: a factory call with a name and no actions on
an empty registry returns a fresh blank Resource without storing it, and a
second identical call returns a different fresh instance, so a Resource
created through the factory is not always held in the registry from
creation onward. -/
theorem claim9_counterexample :
    (resource (emptyApp : AppState String) (some "ghosts") none none).1 =
      .ok (inertResource 0)
  ∧ (resource (emptyApp : AppState String) (some "ghosts") none none).2.1.resources = []
  ∧ (resource ((resource (emptyApp : AppState String) (some "ghosts") none none).2.1)
        (some "ghosts") none none).1 = .ok (inertResource 1)
  ∧ decide ((inertResource 0 : Resource String) = inertResource 1) = false := by
  refine ⟨by decide, by decide, by decide, by decide⟩

/-- Claim C9 as amended: a Resource created with an actions configuration
(when construction succeeds) is stored in the registry from creation
onward and a later no-actions call with the same name returns the stored
instance; a no-actions call for an unknown name returns a fresh blank
Resource that is not stored. -/
theorem claim9_amended :
    (∀ (Act : Type) (app : AppState Act) (name : Option String) (acts : JsObj Act)
        (opts : Option (JsObj Act)) (r : Resource Act) (app2 : AppState Act)
        (m : Option (JsObj Act)),
        resource app name (some acts) opts = (.ok r, app2, m) →
        findRes app2.resources name = some r)
  ∧ (∀ (Act : Type) (app : AppState Act) (name : Option String) (r : Resource Act),
        findRes app.resources name = some r →
        resource app name none none = (.ok r, app, none))
  ∧ (∀ (Act : Type) (app : AppState Act) (name : Option String),
        findRes app.resources name = none →
        resource app name none none =
          (.ok (inertResource app.nextOid),
           { app with nextOid := app.nextOid + 1 }, none)) := by
  refine ⟨?_, ?_, ?_⟩
  · intro Act app name acts opts r app2 m h
    simp only [resource] at h
    split at h
    · simp at h
    · simp only [Prod.mk.injEq, Except.ok.injEq] at h
      obtain ⟨hr, happ, hm⟩ := h
      subst hr
      subst happ
      exact findRes_setAssoc app.resources name _
  · intro Act app name r h
    simp [resource, h]
  · intro Act app name h
    simp [resource, h]

/-- Witness for the amended claim C9: a successful construction (empty
customActions array) is stored and a later no-actions call returns the
stored instance, while a no-actions miss is served a fresh blank
Resource. -/
theorem claim9_amended_witness :
    findRes (resource (emptyApp : AppState String) (some "things")
        (some [("customActions", .pairs [])]) none).2.1.resources (some "things") =
      some { oid := 0, constructed := true, name := some "things", base := some "/", format := .undefined, id := "thing", param := ":thing", routes := [], loadFunction := .undefined }
  ∧ resource ((resource (emptyApp : AppState String) (some "things")
        (some [("customActions", .pairs [])]) none).2.1) (some "things") none none =
      ((.ok { oid := 0, constructed := true, name := some "things", base := some "/", format := .undefined, id := "thing", param := ":thing", routes := [], loadFunction := .undefined },
        (resource (emptyApp : AppState String) (some "things")
          (some [("customActions", .pairs [])]) none).2.1,
        none) : Except JsError (Resource String) × AppState String × Option (JsObj String))
  ∧ resource (emptyApp : AppState String) (some "absent") none none =
      ((.ok (inertResource 0), { resources := [], regs := [], paramHooks := [], nextOid := 1 },
        none) : Except JsError (Resource String) × AppState String × Option (JsObj String)) := by
  refine ⟨?_, ?_, ?_⟩
  · exact claim9_amended.1 String emptyApp (some "things") [("customActions", .pairs [])]
      none
      { oid := 0, constructed := true, name := some "things", base := some "/", format := .undefined, id := "thing", param := ":thing", routes := [], loadFunction := .undefined }
      ((resource (emptyApp : AppState String) (some "things")
        (some [("customActions", .pairs [])]) none).2.1)
      (some [("customActions", .pairs [])])
      (by decide)
  · exact claim9_amended.2.1 String
      ((resource (emptyApp : AppState String) (some "things")
        (some [("customActions", .pairs [])]) none).2.1)
      (some "things")
      { oid := 0, constructed := true, name := some "things", base := some "/", format := .undefined, id := "thing", param := ":thing", routes := [], loadFunction := .undefined }
      (by decide)
  · exact claim9_amended.2.2 String emptyApp (some "absent") (by decide)

/-- Claim C10: with both actions and opts present, the factory first copies
every enumerable key of opts into the caller-supplied actions object
(overwriting same-named keys) and hands exactly that merged object to the
Resource constructor; the third component of the model result is the
caller-visible state of the mutated actions object. -/
theorem claim10_opts_merge {Act : Type} (app : AppState Act) (name : Option String)
    (acts opts : JsObj Act) (k : String) (h : (keysOf opts).Nodup) :
    (resource app name (some acts) (some opts)).2.2 = some (mergeObj acts opts)
  ∧ getObj (mergeObj acts opts) k =
      if (keysOf opts).contains k then getObj opts k else getObj acts k := by
  constructor
  · rcases hc : Resource.construct name
        (some (mergeObj acts opts)) app.nextOid with e | rp <;>
      simp [resource, hc]
  · exact getObj_mergeObj acts opts k h

/-- Witness for claim C10: an opts key overwrites the same-named actions
key and a fresh opts key is added, in the object handed onward by the
factory. -/
theorem claim10_opts_merge_witness :
    (resource (emptyApp : AppState String) (some "users")
        (some [("id", .str "uid")])
        (some [("id", .str "override"), ("format", .str "json")])).2.2 =
      some (mergeObj [("id", .str "uid")]
        [("id", .str "override"), ("format", .str "json")])
  ∧ getObj (mergeObj ([("id", .str "uid")] : JsObj String)
        [("id", .str "override"), ("format", .str "json")]) "id" =
      (if (keysOf [("id", (JsVal.str "override" : JsVal String)),
            ("format", .str "json")]).contains "id" then
        getObj [("id", (JsVal.str "override" : JsVal String)), ("format", .str "json")] "id"
      else getObj [("id", (JsVal.str "uid" : JsVal String))] "id") :=
  claim10_opts_merge emptyApp (some "users") [("id", .str "uid")]
    [("id", .str "override"), ("format", .str "json")] "id" (by decide)

/-- Claim C6: the auto-load parameter hook forwards a truthy loader error
to next(err); an undefined result sends a 404 response and never reaches
the matched route handler (the attach-and-continue outcome); any other
result is attached to the request under the bare id-parameter name before
next() is called; and the loader is invoked as (rawId, callback) when its
declared arity is 2 and as (request, rawId, callback) otherwise, while
load itself registers the hook under the id-parameter name. -/
theorem claim6_loader_contract :
    (∀ (Err Obj : Type) (id : String) (e : Err) (obj : Option Obj),
        loadCallback id (some e) obj = .nextErr e)
  ∧ (∀ (Err Obj : Type) (id : String),
        (loadCallback id none none : LoadOutcome Err Obj) = .send404)
  ∧ (∀ (Err Obj : Type) (id : String),
        (loadCallback id none none : LoadOutcome Err Obj).reachesAction = false)
  ∧ (∀ (Err Obj : Type) (id : String) (o : Obj),
        (loadCallback id none (some o) : LoadOutcome Err Obj) = .attachNext id o)
  ∧ (∀ (Err Obj : Type)
        (f : String → (Option Err → Option Obj → LoadOutcome Err Obj) → LoadOutcome Err Obj)
        (id : String) (req : JsRequest),
        paramHookRun (.arity2 f) id req = f (req.params id) (loadCallback id))
  ∧ (∀ (Err Obj : Type)
        (g : JsRequest → String → (Option Err → Option Obj → LoadOutcome Err Obj) →
          LoadOutcome Err Obj)
        (id : String) (req : JsRequest),
        paramHookRun (.arityOther g) id req = g req (req.params id) (loadCallback id))
  ∧ (∀ (Act : Type) (r : Resource Act) (fn : JsVal Act)
        (hooks : List (String × JsVal Act)),
        (Resource.load r fn hooks).2 = hooks ++ [(r.id, fn)]
        ∧ (Resource.load r fn hooks).1.loadFunction = fn) := by
  refine ⟨?_, ?_, ?_, ?_, ?_, ?_, ?_⟩
  · intro Err Obj id e obj
    rfl
  · intro Err Obj id
    rfl
  · intro Err Obj id
    rfl
  · intro Err Obj id o
    rfl
  · intro Err Obj f id req
    rfl
  · intro Err Obj g id req
    rfl
  · intro Act r fn hooks
    exact ⟨rfl, rfl⟩

/-- Claim C7: after parent.add(child), the child base is recomputed as the
parent base plus the parent name and a separator when the parent is named
plus the colon-prefixed parent id parameter and a separator; and every
previously stored child route is removed from the child route table and
re-registered through map with its original sub-path and action against
the new base (stated under the well-formedness of the route table that
registration through map establishes: bucket verbs are lowercase and
match their records, and the recomputed route paths collide neither with
the old keys nor with each other). -/
theorem claim7_add_rebases {Act : Type} (parent child : Resource Act)
    (regs : List (AppRoute Act)) (b : String)
    (hpb : parent.base = some b)
    (hpp : parent.param = ":" ++ parent.id)
    (htv : (keysOf child.routes).Nodup)
    (hlow : ∀ v ∈ keysOf child.routes, jsToLower v = v)
    (hv : ∀ v ∈ keysOf child.routes, ∀ q ∈ findBucket child.routes v, q.2.httpVerb = v)
    (hfresh : ∀ v ∈ keysOf child.routes, ∀ q ∈ findBucket child.routes v,
      ∀ q2 ∈ findBucket child.routes v,
      (remapRec { child with base := some (nestedBase parent) } q.2).path ≠ q2.1)
    (hnd : ∀ v ∈ keysOf child.routes,
      ((findBucket child.routes v).map
        (fun q => (remapRec { child with base := some (nestedBase parent) } q.2).path)).Nodup) :
    (Resource.add parent child regs).1.base =
        some (b ++ (if optStrTruthy parent.name then parent.name.getD "" ++ "/" else "")
          ++ ":" ++ parent.id ++ "/")
  ∧ (∀ v ∈ keysOf child.routes,
      findBucket (Resource.add parent child regs).1.routes v =
        (findBucket child.routes v).map
          (remapPair { child with base := some (nestedBase parent) }))
  ∧ (∀ v ∈ keysOf child.routes, ∀ q ∈ findBucket child.routes v,
      q.1 ∉ keysOf (findBucket (Resource.add parent child regs).1.routes v))
  ∧ (Resource.add parent child regs).2 =
      regs ++ (keysOf child.routes).flatMap
        (fun v => (findBucket child.routes v).map
          (fun q => remapReg { child with base := some (nestedBase parent) } q.2)) := by
  have hadd : Resource.add parent child regs =
      (keysOf child.routes).foldl addOuterStep
        ({ child with base := some (nestedBase parent) }, regs) := rfl
  have houter := addOuter_spec { child with base := some (nestedBase parent) }
    child.routes hlow hv hfresh hnd (keysOf child.routes)
    { child with base := some (nestedBase parent) } regs
    (fun v h => h) htv rfl rfl rfl (fun v _ => rfl)
  obtain ⟨ho1, ho2, ho3, ho4, ho5, ho6⟩ := houter
  rw [← hadd] at ho1 ho4 ho6
  refine ⟨?_, ho4, ?_, ho6⟩
  · rw [ho1]
    show some (nestedBase parent) = _
    rw [nestedBase, hpb, hpp]
    show some (b ++ _ ++ (":" ++ parent.id) ++ "/") = _
    rw [← String.append_assoc]
  · intro v hvm q hq hin
    rw [ho4 v hvm] at hin
    rw [keysOf, List.map_map] at hin
    obtain ⟨q2, hq2, hq2e⟩ := List.mem_map.mp hin
    exact hfresh v hvm q2 hq2 q hq (by simpa [remapPair] using hq2e)

/-- Witness for claim C7: parent "posts" with base "/" and a child
"comments" holding its two stored routes; the recomputed child base is
"/posts/:post/" and both routes are re-registered under it. -/
theorem claim7_add_rebases_witness :
    ((Resource.add ({ oid := 4, constructed := true, name := some "posts", base := some "/", format := .undefined, id := "post", param := ":post", routes := [], loadFunction := .undefined } : Resource String) ({ oid := 5, constructed := true, name := some "comments", base := some "/", format := .undefined, id := "comment", param := ":comment", routes := [("get", [("/comments.:format?", ⟨"get", "/comments.:format?", .str "/", "indexFn"⟩), ("/comments/:comment.:format?", ⟨"get", "/comments/:comment.:format?", .handler "showFn", "showFn"⟩)])], loadFunction := .undefined }) []).1.base =
        some ("/" ++ (if optStrTruthy ({ oid := 4, constructed := true, name := some "posts", base := some "/", format := .undefined, id := "post", param := ":post", routes := [], loadFunction := .undefined } : Resource String).name then ({ oid := 4, constructed := true, name := some "posts", base := some "/", format := .undefined, id := "post", param := ":post", routes := [], loadFunction := .undefined } : Resource String).name.getD "" ++ "/" else "") ++ ":" ++ ({ oid := 4, constructed := true, name := some "posts", base := some "/", format := .undefined, id := "post", param := ":post", routes := [], loadFunction := .undefined } : Resource String).id ++ "/")
  ∧ (∀ v ∈ keysOf ({ oid := 5, constructed := true, name := some "comments", base := some "/", format := .undefined, id := "comment", param := ":comment", routes := [("get", [("/comments.:format?", ⟨"get", "/comments.:format?", .str "/", "indexFn"⟩), ("/comments/:comment.:format?", ⟨"get", "/comments/:comment.:format?", .handler "showFn", "showFn"⟩)])], loadFunction := .undefined } : Resource String).routes,
      findBucket (Resource.add ({ oid := 4, constructed := true, name := some "posts", base := some "/", format := .undefined, id := "post", param := ":post", routes := [], loadFunction := .undefined } : Resource String) ({ oid := 5, constructed := true, name := some "comments", base := some "/", format := .undefined, id := "comment", param := ":comment", routes := [("get", [("/comments.:format?", ⟨"get", "/comments.:format?", .str "/", "indexFn"⟩), ("/comments/:comment.:format?", ⟨"get", "/comments/:comment.:format?", .handler "showFn", "showFn"⟩)])], loadFunction := .undefined }) []).1.routes v =
        (findBucket ({ oid := 5, constructed := true, name := some "comments", base := some "/", format := .undefined, id := "comment", param := ":comment", routes := [("get", [("/comments.:format?", ⟨"get", "/comments.:format?", .str "/", "indexFn"⟩), ("/comments/:comment.:format?", ⟨"get", "/comments/:comment.:format?", .handler "showFn", "showFn"⟩)])], loadFunction := .undefined } : Resource String).routes v).map (remapPair ({ oid := 5, constructed := true, name := some "comments", base := some (nestedBase ({ oid := 4, constructed := true, name := some "posts", base := some "/", format := .undefined, id := "post", param := ":post", routes := [], loadFunction := .undefined } : Resource String)), format := .undefined, id := "comment", param := ":comment", routes := [("get", [("/comments.:format?", ⟨"get", "/comments.:format?", .str "/", "indexFn"⟩), ("/comments/:comment.:format?", ⟨"get", "/comments/:comment.:format?", .handler "showFn", "showFn"⟩)])], loadFunction := .undefined } : Resource String)))
  ∧ (∀ v ∈ keysOf ({ oid := 5, constructed := true, name := some "comments", base := some "/", format := .undefined, id := "comment", param := ":comment", routes := [("get", [("/comments.:format?", ⟨"get", "/comments.:format?", .str "/", "indexFn"⟩), ("/comments/:comment.:format?", ⟨"get", "/comments/:comment.:format?", .handler "showFn", "showFn"⟩)])], loadFunction := .undefined } : Resource String).routes, ∀ q ∈ findBucket ({ oid := 5, constructed := true, name := some "comments", base := some "/", format := .undefined, id := "comment", param := ":comment", routes := [("get", [("/comments.:format?", ⟨"get", "/comments.:format?", .str "/", "indexFn"⟩), ("/comments/:comment.:format?", ⟨"get", "/comments/:comment.:format?", .handler "showFn", "showFn"⟩)])], loadFunction := .undefined } : Resource String).routes v,
      q.1 ∉ keysOf (findBucket (Resource.add ({ oid := 4, constructed := true, name := some "posts", base := some "/", format := .undefined, id := "post", param := ":post", routes := [], loadFunction := .undefined } : Resource String) ({ oid := 5, constructed := true, name := some "comments", base := some "/", format := .undefined, id := "comment", param := ":comment", routes := [("get", [("/comments.:format?", ⟨"get", "/comments.:format?", .str "/", "indexFn"⟩), ("/comments/:comment.:format?", ⟨"get", "/comments/:comment.:format?", .handler "showFn", "showFn"⟩)])], loadFunction := .undefined }) []).1.routes v))
  ∧ (Resource.add ({ oid := 4, constructed := true, name := some "posts", base := some "/", format := .undefined, id := "post", param := ":post", routes := [], loadFunction := .undefined } : Resource String) ({ oid := 5, constructed := true, name := some "comments", base := some "/", format := .undefined, id := "comment", param := ":comment", routes := [("get", [("/comments.:format?", ⟨"get", "/comments.:format?", .str "/", "indexFn"⟩), ("/comments/:comment.:format?", ⟨"get", "/comments/:comment.:format?", .handler "showFn", "showFn"⟩)])], loadFunction := .undefined }) []).2 =
      [] ++ (keysOf ({ oid := 5, constructed := true, name := some "comments", base := some "/", format := .undefined, id := "comment", param := ":comment", routes := [("get", [("/comments.:format?", ⟨"get", "/comments.:format?", .str "/", "indexFn"⟩), ("/comments/:comment.:format?", ⟨"get", "/comments/:comment.:format?", .handler "showFn", "showFn"⟩)])], loadFunction := .undefined } : Resource String).routes).flatMap
        (fun v => (findBucket ({ oid := 5, constructed := true, name := some "comments", base := some "/", format := .undefined, id := "comment", param := ":comment", routes := [("get", [("/comments.:format?", ⟨"get", "/comments.:format?", .str "/", "indexFn"⟩), ("/comments/:comment.:format?", ⟨"get", "/comments/:comment.:format?", .handler "showFn", "showFn"⟩)])], loadFunction := .undefined } : Resource String).routes v).map
          (fun q => remapReg ({ oid := 5, constructed := true, name := some "comments", base := some (nestedBase ({ oid := 4, constructed := true, name := some "posts", base := some "/", format := .undefined, id := "post", param := ":post", routes := [], loadFunction := .undefined } : Resource String)), format := .undefined, id := "comment", param := ":comment", routes := [("get", [("/comments.:format?", ⟨"get", "/comments.:format?", .str "/", "indexFn"⟩), ("/comments/:comment.:format?", ⟨"get", "/comments/:comment.:format?", .handler "showFn", "showFn"⟩)])], loadFunction := .undefined } : Resource String) q.2)))
  ∧ (Resource.add ({ oid := 4, constructed := true, name := some "posts", base := some "/", format := .undefined, id := "post", param := ":post", routes := [], loadFunction := .undefined } : Resource String) ({ oid := 5, constructed := true, name := some "comments", base := some "/", format := .undefined, id := "comment", param := ":comment", routes := [("get", [("/comments.:format?", ⟨"get", "/comments.:format?", .str "/", "indexFn"⟩), ("/comments/:comment.:format?", ⟨"get", "/comments/:comment.:format?", .handler "showFn", "showFn"⟩)])], loadFunction := .undefined }) []).1.base = some "/posts/:post/"
  ∧ (Resource.add ({ oid := 4, constructed := true, name := some "posts", base := some "/", format := .undefined, id := "post", param := ":post", routes := [], loadFunction := .undefined } : Resource String) ({ oid := 5, constructed := true, name := some "comments", base := some "/", format := .undefined, id := "comment", param := ":comment", routes := [("get", [("/comments.:format?", ⟨"get", "/comments.:format?", .str "/", "indexFn"⟩), ("/comments/:comment.:format?", ⟨"get", "/comments/:comment.:format?", .handler "showFn", "showFn"⟩)])], loadFunction := .undefined }) []).2 =
      [⟨"get", "/posts/:post/comments.:format?", "indexFn"⟩,
       ⟨"get", "/posts/:post/comments/:comment.:format?", "showFn"⟩] := by
  refine ⟨?_, by decide, by decide⟩
  exact claim7_add_rebases ({ oid := 4, constructed := true, name := some "posts", base := some "/", format := .undefined, id := "post", param := ":post", routes := [], loadFunction := .undefined } : Resource String) ({ oid := 5, constructed := true, name := some "comments", base := some "/", format := .undefined, id := "comment", param := ":comment", routes := [("get", [("/comments.:format?", ⟨"get", "/comments.:format?", .str "/", "indexFn"⟩), ("/comments/:comment.:format?", ⟨"get", "/comments/:comment.:format?", .handler "showFn", "showFn"⟩)])], loadFunction := .undefined }) [] "/"
    (by decide) (by decide) (by decide) (by decide) (by decide) (by decide) (by decide)

/-- Witness for claim C6 at concrete types and inputs: an error loader
outcome is forwarded, an undefined result yields 404 without reaching the
handler, a resolved entity is attached under the bare id name, and the
two loader arities receive their respective argument shapes. -/
theorem claim6_loader_contract_witness :
    loadCallback "user" (some "boom") (some (7 : Nat)) = .nextErr "boom"
  ∧ (loadCallback "user" none none : LoadOutcome String Nat) = .send404
  ∧ (loadCallback "user" none none : LoadOutcome String Nat).reachesAction = false
  ∧ (loadCallback "user" none (some (7 : Nat)) : LoadOutcome String Nat) = .attachNext "user" 7
  ∧ paramHookRun
      ((.arity2 (fun rawId k => k none (some rawId.length))) : LoaderFn String Nat)
      "user" ⟨fun _ => "42"⟩ =
      (fun (rawId : String) (k : Option String → Option Nat → LoadOutcome String Nat) =>
        k none (some rawId.length)) "42" (loadCallback "user")
  ∧ paramHookRun
      ((.arityOther (fun _ rawId k => k none (some rawId.length))) : LoaderFn String Nat)
      "user" ⟨fun _ => "42"⟩ =
      (fun (_ : JsRequest) (rawId : String)
          (k : Option String → Option Nat → LoadOutcome String Nat) =>
        k none (some rawId.length)) ⟨fun _ => "42"⟩ "42" (loadCallback "user") := by
  refine ⟨?_, ?_, ?_, ?_, ?_, ?_⟩
  · exact claim6_loader_contract.1 String Nat "user" "boom" (some 7)
  · exact claim6_loader_contract.2.1 String Nat "user"
  · exact claim6_loader_contract.2.2.1 String Nat "user"
  · exact claim6_loader_contract.2.2.2.1 String Nat "user" 7
  · exact claim6_loader_contract.2.2.2.2.1 String Nat
      (fun rawId k => k none (some rawId.length)) "user" ⟨fun _ => "42"⟩
  · exact claim6_loader_contract.2.2.2.2.2.1 String Nat
      (fun _ rawId k => k none (some rawId.length)) "user" ⟨fun _ => "42"⟩

end ExpressResource
